import Mathlib

/-!
# Verification of the mlpack `RNN` container (`src/mlpack/methods/ann/rnn.hpp`)

A shallow embedding of the recurrent-neural-network training container
declared in `rnn.hpp`.  The repository ships only the class declaration
(`rnn.hpp`); the accompanying implementation body (`rnn_impl.hpp`, included
at the bottom of the header) is not part of the source tree, so the
orchestration bodies (`Reset`, `Forward`, `Backward`, `Gradient`,
`Evaluate`, `EvaluateWithGradient`, `Shuffle`, `ResetCells`, ...) are
modelled from the specification, as marked on each definition.

Numbers are modelled as rationals; a possibly non-finite value (NaN/Inf)
is `Option ℚ` with `none` standing for the non-finite sentinel.  The
rank-3 sequence tensors (feature × example × time-step) are modelled
example-major: a cube is a list of examples, each example a list of
time-step feature vectors.  Fallible entry points (`Train`, `Evaluate`,
`EvaluateWithGradient`) return `Except`: a fatal precondition violation is
the `.error` case (it carries no updated model, so no state is mutated),
while numerical divergence is an ordinary `.ok` value carrying the
non-finite sentinel.
-/

namespace RNNSpec

/-- A possibly non-finite scalar: `none` models a NaN/Inf sentinel value
arising from numerical divergence; `some q` is a finite value. -/
abbrev EFlt := Option ℚ

/-- Addition on possibly non-finite scalars: a non-finite operand makes the
result non-finite (absorbing), mirroring IEEE NaN/Inf propagation. -/
def eadd : EFlt → EFlt → EFlt
  | some a, some b => some (a + b)
  | _, _ => none

/-- Sum of a list of possibly non-finite scalars. -/
def esum (l : List EFlt) : EFlt := l.foldr eadd (some 0)

/-- A rank-3 sequence tensor (predictors or responses), example-major:
outer list = examples (the separable axis), each example a list of
time-step slices, each slice a feature vector. -/
abbrev Cube := List (List (List ℚ))

/-- Pointwise addition of two vectors, keeping the left operand's length
(missing entries of the right operand are treated as zero); used for the
temporal additive accumulation of errors and for gradient accumulation. -/
def vecAddL : List ℚ → List ℚ → List ℚ
  | [], _ => []
  | a :: as, [] => a :: as
  | a :: as, b :: bs => (a + b) :: vecAddL as bs

/-- Pad (with zeros) or truncate a vector to length `n`; used to force each
layer's gradient contribution into exactly its parameter sub-range size. -/
def fitTo (n : ℕ) (xs : List ℚ) : List ℚ :=
  xs.take n ++ List.replicate (n - xs.length) 0

/-- Modelled from the spec: the Layer Abstraction of §4.1 (the individual
layer classes live outside `src/`; each layer is an opaque polymorphic
unit).  A layer owns a parameter count, a designated initial recurrent
state (`ResetCell` restores it), an opaque forward map (deterministic-mode
flag, parameter sub-range, recurrent state, input ↦ output and new state),
an opaque backward map (cached output, error-from-above ↦
error-to-propagate) and an opaque gradient map (cached input, error ↦
parameter-gradient contribution). -/
structure Layer where
  paramCount : ℕ
  initState : List ℚ
  fwd : Bool → List ℚ → List ℚ → List ℚ → List ℚ × List ℚ
  bwd : List ℚ → List ℚ → List ℚ
  grad : List ℚ → List ℚ → List ℚ

/-- The identity/stateless layer, used as the `Inhabited` default. -/
def idLayer : Layer where
  paramCount := 0
  initState := []
  fwd := fun _ _ s x => (x, s)
  bwd := fun _ e => e
  grad := fun _ _ => []

instance : Inhabited Layer := ⟨idLayer⟩

/-- Total parameter count of a layer composition: the sum of every layer's
reported parameter count (the `WeightSizeVisitor` folded over `network`). -/
def totalParams (net : List Layer) : ℕ := (net.map Layer.paramCount).sum

/-- Offset of layer `i`'s sub-range view inside the flat parameter buffer:
the parameters of the layers preceding it (the buffer is contiguous and
assigned in insertion order). -/
def layerOffset (net : List Layer) (i : ℕ) : ℕ := totalParams (net.take i)

/-- Parameter count of layer `i` of the composition. -/
def layerCount (net : List Layer) (i : ℕ) : ℕ := (net.getD i idLayer).paramCount

/-- Layer `i`'s sub-range view into a flat buffer `buf`. -/
def layerSlice (net : List Layer) (buf : List ℚ) (i : ℕ) : List ℚ :=
  (buf.drop (layerOffset net i)).take (layerCount net i)

/-- Per-layer parameter slices of a flat buffer, in insertion order: each
layer takes its reported count off the front of what remains. -/
def slicesOf : List Layer → List ℚ → List (List ℚ)
  | [], _ => []
  | l :: ls, buf => buf.take l.paramCount :: slicesOf ls (buf.drop l.paramCount)

/-- Initial recurrent states of every layer (what `ResetCells` restores). -/
def initStates (net : List Layer) : List (List ℚ) := net.map Layer.initState

/-- Result of one time step of the forward engine: the network output, the
updated per-layer recurrent states, and the per-layer cached inputs and
outputs (the per-step activation cache `moduleOutputParameter`). -/
structure StepFwd where
  out : List ℚ
  states : List (List ℚ)
  cacheIn : List (List ℚ)
  cacheOut : List (List ℚ)

/-- Modelled from the spec: the Forward Engine (§4.2) for one time step
(`RNN::Forward`, implementation missing): feed the step's input into layer
0, chain each layer's output into the next layer's input in insertion
order, retaining every layer's input and output in the per-step cache. -/
def stackFwd (det : Bool) : List Layer → List (List ℚ) → List (List ℚ) → List ℚ → StepFwd
  | [], _, _, x => ⟨x, [], [], []⟩
  | l :: ls, ps, ss, x =>
    let r := l.fwd det (ps.headD []) (ss.headD l.initState) x
    let rest := stackFwd det ls ps.tail ss.tail r.1
    ⟨rest.out, r.2 :: rest.states, x :: rest.cacheIn, r.1 :: rest.cacheOut⟩

/-- Result of unrolling the forward engine over a sequence: per-step network
outputs, per-step caches (chronological), and the final recurrent states. -/
structure SeqFwd where
  outs : List (List ℚ)
  caches : List (List (List ℚ) × List (List ℚ))
  states : List (List ℚ)

/-- Modelled from the spec: the forward unroll over a whole sequence
(chronological order), threading recurrent state from step to step and
retaining every step's activation cache. -/
def seqFwd (det : Bool) (net : List Layer) (ps : List (List ℚ)) :
    List (List ℚ) → List (List ℚ) → SeqFwd
  | ss, [] => ⟨[], [], ss⟩
  | ss, x :: xs =>
    let st := stackFwd det net ps ss x
    let rest := seqFwd det net ps st.states xs
    ⟨st.out :: rest.outs, (st.cacheIn, st.cacheOut) :: rest.caches, rest.states⟩

/-- Modelled from the spec: one step of the Backward Engine (§4.3) through
the layer stack in reverse insertion order: the incoming error enters above
the last layer; each layer receives the error with respect to its output
(the error propagated down by the layers above it) and hands the error for
the layer below.  Returns the per-layer errors (insertion order) and the
error exiting below the first layer, which is fed back to the previous time
step (temporal additive accumulation). -/
def stackBwd : List Layer → List (List ℚ) → List ℚ → List (List ℚ) × List ℚ
  | [], _, e => ([], e)
  | l :: ls, couts, eTop =>
    let rest := stackBwd ls couts.tail eTop
    (rest.2 :: rest.1, l.bwd (couts.headD []) rest.2)

/-- What the backward pass needs from one time step: the cached per-layer
inputs and outputs from the forward unroll and the loss-gradient error
signal at the top of the stack for that step. -/
structure StepBwdIn where
  cacheIn : List (List ℚ)
  cacheOut : List (List ℚ)
  lossErr : List ℚ

/-- Modelled from the spec: the Backward Engine's sweep through time
(`RNN::Backward`, implementation missing): steps are processed latest
first; each step's top error is its own loss error combined additively with
the temporal feedback from the following step, and the error exiting the
bottom of the stack becomes the feedback for the preceding step.  Returns,
latest first, each processed step's per-layer errors paired with its
per-layer cached inputs. -/
def bpttErrors (net : List Layer) : List ℚ → List StepBwdIn →
    List (List (List ℚ) × List (List ℚ))
  | _, [] => []
  | fb, st :: older =>
    let r := stackBwd net st.cacheOut (vecAddL st.lossErr fb)
    (r.1, st.cacheIn) :: bpttErrors net r.2 older

/-- Modelled from the spec: one retained step's parameter-gradient
contribution (§4.4): each layer's gradient operation applied to that step's
cached input and error, laid out contiguously over the layers' disjoint
sub-ranges (each contribution forced to its layer's parameter count). -/
def stackGrad : List Layer → List (List ℚ) → List (List ℚ) → List ℚ
  | [], _, _ => []
  | l :: ls, cins, errs =>
    fitTo l.paramCount (l.grad (cins.headD []) (errs.headD [])) ++
      stackGrad ls cins.tail errs.tail

/-- The per-step gradient contributions (latest first) of a backward sweep
started with feedback `fb` over the given steps. -/
def gradTerms (net : List Layer) (fb : List ℚ) (steps : List StepBwdIn) : List (List ℚ) :=
  (bpttErrors net fb steps).map (fun pr => stackGrad net pr.2 pr.1)

/-- Modelled from the spec: `RNN::ResetGradients` (implementation missing):
the flat gradient buffer set to zero, sized by the layer composition. -/
def resetGradients (net : List Layer) : List ℚ :=
  List.replicate (totalParams net) 0

/-- Modelled from the spec: the Gradient Aggregator (§4.4,
`RNN::Gradient (private)`, implementation missing): the flat gradient
buffer is zeroed exactly once (`resetGradients`), then every retained
step's contribution is added — not overwritten — into it. -/
def aggregateGradient (net : List Layer) (steps : List StepBwdIn) : List ℚ :=
  (gradTerms net [] steps).foldl vecAddL (resetGradients net)

/-- Replace every step's error vector by zeros except the final step's;
implements the `single` truncation of the loss-gradient signal. -/
def zeroAllButLast : List (List ℚ) → List (List ℚ)
  | [] => []
  | [e] => [e]
  | e :: f :: rest => (e.map fun _ => 0) :: zeroAllButLast (f :: rest)

/-- Modelled from the spec: the per-step loss-gradient error signals for a
sequence: the output layer's loss gradient at every scored step; in
`single` mode only the final step is scored and every earlier step
receives a zero error. -/
def lossErrsOf (lg : List ℚ → List ℚ → List ℚ) (single : Bool)
    (outs tgts : List (List ℚ)) : List (List ℚ) :=
  let base := List.zipWith lg outs tgts
  if single then zeroAllButLast base else base

/-- Build the backward sweep's input (latest step first) for one example:
forward-unroll the sequence from freshly reset cells, attach the per-step
loss errors, and reverse into latest-first order. -/
def stepsFor (net : List Layer) (buf : List ℚ) (lg : List ℚ → List ℚ → List ℚ)
    (single : Bool) (ex tgts : List (List ℚ)) : List StepBwdIn :=
  let sf := seqFwd false net (slicesOf net buf) (initStates net) ex
  (List.zipWith (fun c e => StepBwdIn.mk c.1 c.2 e) sf.caches
    (lossErrsOf lg single sf.outs tgts)).reverse

/-- Modelled from the spec: truncated BPTT for one example: backward sweep
and gradient accumulation over at most `rho` retained steps, latest first
(`Stop after rho steps even if the original sequence is longer`). -/
def truncatedGradient (net : List Layer) (buf : List ℚ)
    (lg : List ℚ → List ℚ → List ℚ) (single : Bool) (rho : ℕ)
    (ex tgts : List (List ℚ)) : List ℚ :=
  aggregateGradient net ((stepsFor net buf lg single ex tgts).take rho)

/-- Untruncated BPTT for one example: backward sweep and gradient
accumulation over every time step of the sequence. -/
def fullGradient (net : List Layer) (buf : List ℚ)
    (lg : List ℚ → List ℚ → List ℚ) (single : Bool)
    (ex tgts : List (List ℚ)) : List ℚ :=
  aggregateGradient net (stepsFor net buf lg single ex tgts)

/-- Zero out (replacing by the length-`P` zero vector) every entry of a
latest-first contribution list whose age is `rho` or more: the
contributions of the time steps older than the rho-bounded window. -/
def maskOlder (rho P : ℕ) : ℕ → List (List ℚ) → List (List ℚ)
  | _, [] => []
  | age, t :: ts =>
    (if age < rho then t else List.replicate P 0) :: maskOlder rho P (age + 1) ts

/-- Modelled from the spec: the state of an `RNN` object (the private data
members of the class; behaviourally relevant fields only).  The pluggable
output layer is carried as an opaque loss / loss-gradient pair, and the
pluggable initialization rule as an opaque buffer filler. -/
structure RNNModel where
  rho : ℕ
  single : Bool
  network : List Layer
  parameter : List ℚ
  predictors : Cube
  responses : Cube
  numFunctions : ℕ
  reset : Bool
  states : List (List ℚ)
  deterministic : Bool
  lossFn : List ℚ → List ℚ → EFlt
  lossGrad : List ℚ → List ℚ → List ℚ
  initRule : ℕ → List ℚ

/-- Modelled from the spec: `RNN::Reset` (implementation missing):
(re)allocates the parameter buffer to the total required size given the
current layer composition (filling it deterministically from the
initialization rule when resizing), resets all memory cells, and marks the
network as reset; idempotent when the structure is unchanged. -/
def resetModel (m : RNNModel) : RNNModel :=
  { m with
    parameter :=
      if m.parameter.length = totalParams m.network then m.parameter
      else fitTo (totalParams m.network) (m.initRule (totalParams m.network)),
    states := initStates m.network,
    reset := true }

/-- Modelled from the spec: `RNN::ResetCells` (implementation missing):
restores every layer's recurrent memory to its initial state so a new,
independent sequence starts with no history. -/
def resetCellsM (m : RNNModel) : RNNModel :=
  { m with states := initStates m.network }

/-- The per-step outputs produced by `RNN::Forward` unrolled over a whole
sequence from the model's current recurrent states. -/
def runSeqOuts (m : RNNModel) (ex : List (List ℚ)) : List (List ℚ) :=
  (seqFwd m.deterministic m.network (slicesOf m.network m.parameter) m.states ex).outs

/-- The model after `RNN::Forward` has been unrolled over a whole sequence:
only the recurrent states change (the activation caches are ephemeral and
the parameters are read-only during a forward pass). -/
def runSeqModel (m : RNNModel) (ex : List (List ℚ)) : RNNModel :=
  { m with
    states := (seqFwd m.deterministic m.network (slicesOf m.network m.parameter)
      m.states ex).states }

/-- The per-step outputs of a sequence evaluated from freshly reset cells
(every example is an independent sequence). -/
def exampleOuts (net : List Layer) (buf : List ℚ) (det : Bool)
    (ex : List (List ℚ)) : List (List ℚ) :=
  (seqFwd det net (slicesOf net buf) (initStates net) ex).outs

/-- Modelled from the spec: the loss terms one example contributes: in
`single` mode only the final step's output is scored against the final
target; otherwise every step's output is scored against its target. -/
def exampleTerms (net : List Layer) (buf : List ℚ)
    (lossFn : List ℚ → List ℚ → EFlt) (single : Bool) (det : Bool)
    (ex tgts : List (List ℚ)) : List EFlt :=
  if single then [lossFn ((exampleOuts net buf det ex).getLastD []) (tgts.getLastD [])]
  else List.zipWith lossFn (exampleOuts net buf det ex) tgts

/-- One example's loss: the sum of its loss terms. -/
def exampleLoss (net : List Layer) (buf : List ℚ)
    (lossFn : List ℚ → List ℚ → EFlt) (single : Bool) (det : Bool)
    (ex tgts : List (List ℚ)) : EFlt :=
  esum (exampleTerms net buf lossFn single det ex tgts)

/-- The mini-batch: `batchSize` consecutive (predictor, response) example
pairs starting at example index `begin`. -/
def batchOf (p r : Cube) (b bs : ℕ) : List (List (List ℚ) × List (List ℚ)) :=
  ((p.zip r).drop b).take bs

/-- The batch objective: the sum of the per-example losses over the batch. -/
def objectiveCore (net : List Layer) (buf : List ℚ)
    (lossFn : List ℚ → List ℚ → EFlt) (single : Bool) (det : Bool)
    (p r : Cube) (b bs : ℕ) : EFlt :=
  esum ((batchOf p r b bs).map (fun e => exampleLoss net buf lossFn single det e.1 e.2))

/-- Every individual loss term the batch objective sums (the flattened
per-example terms); the objective diverges exactly when one of these is the
non-finite sentinel. -/
def lossTermsOn (m : RNNModel) (params : List ℚ) (det : Bool) (b bs : ℕ) : List EFlt :=
  ((batchOf m.predictors m.responses b bs).map
    (fun e => exampleTerms m.network params m.lossFn m.single det e.1 e.2)).flatten

/-- Number of time steps of a cube (the slice count of the underlying
rank-3 array; every example of a well-formed cube has this many steps). -/
def stepsOf (c : Cube) : ℕ := (c.headD []).length

/-- Modelled from the spec: the fatal shape precondition (§7): predictors
and responses must agree on the example count and on the time-step count,
and each cube must be rectangular (every example has the cube's step
count). -/
def shapesMatch (p r : Cube) : Bool :=
  p.length == r.length && stepsOf p == stepsOf r &&
    p.all (fun e => e.length == stepsOf p) && r.all (fun e => e.length == stepsOf r)

/-- Modelled from the spec: `RNN::Evaluate(parameters, begin, batchSize,
deterministic)` (implementation missing): fails fast on a parameter-buffer
size mismatch or a predictor/response shape mismatch before any forward
computation; auto-initializes (`Reset`) when the network has not been reset
yet; loads the supplied parameters into the flat buffer and returns the
batch objective — a possibly non-finite sentinel value, never an
exception. -/
def evaluateChecked (m : RNNModel) (params : List ℚ) (b bs : ℕ) (det : Bool) :
    Except String EFlt :=
  if params.length ≠ totalParams m.network then .error "parameter size mismatch"
  else if ¬ shapesMatch m.predictors m.responses then .error "shape mismatch"
  else
    let m₁ := if m.reset then m else resetModel m
    .ok (objectiveCore m₁.network params m₁.lossFn m₁.single det m₁.predictors
      m₁.responses b bs)

/-- Modelled from the header's documentation of the three-argument
`RNN::Evaluate(parameters, begin, batchSize)`: it just calls the
four-argument overload with `deterministic = true`. -/
def evaluateThreeArg (m : RNNModel) (params : List ℚ) (b bs : ℕ) : Except String EFlt :=
  evaluateChecked m params b bs true

/-- Modelled from the spec: `RNN::EvaluateWithGradient` (implementation
missing): fused Forward+Backward+Gradient over the batch in training mode;
same fail-fast preconditions as `Evaluate`; the batch gradient accumulates
each example's truncated-BPTT gradient into the once-zeroed flat gradient
buffer; numerical divergence is returned as the non-finite sentinel. -/
def evaluateWithGradientChecked (m : RNNModel) (params : List ℚ) (b bs : ℕ) :
    Except String (EFlt × List ℚ) :=
  if params.length ≠ totalParams m.network then .error "parameter size mismatch"
  else if ¬ shapesMatch m.predictors m.responses then .error "shape mismatch"
  else
    let m₁ := if m.reset then m else resetModel m
    .ok (objectiveCore m₁.network params m₁.lossFn m₁.single false m₁.predictors
        m₁.responses b bs,
      (batchOf m₁.predictors m₁.responses b bs).foldl
        (fun g e => vecAddL g
          (truncatedGradient m₁.network params m₁.lossGrad m₁.single m₁.rho e.1 e.2))
        (resetGradients m₁.network))

/-- Modelled from the spec: `RNN::Train` (implementation missing):
validates the predictor/response shapes — a fatal precondition violation
fails fast before any computation and before any member is written — then
stores the data, resets the network, and hands the objective to the
external optimizer (out of scope, §1); returns the final objective. -/
def trainChecked (m : RNNModel) (p r : Cube) : Except String (RNNModel × EFlt) :=
  if ¬ shapesMatch p r then .error "shape mismatch"
  else
    let m₁ := resetModel { m with predictors := p, responses := r, numFunctions := p.length }
    .ok (m₁, objectiveCore m₁.network m₁.parameter m₁.lossFn m₁.single false
      m₁.predictors m₁.responses 0 m₁.numFunctions)

/-- Modelled from the spec: `RNN::Shuffle` (implementation missing):
permutes the example axis of predictors and responses jointly; the concrete
random ordering is drawn by the implementation, so the model takes the
ordering as an argument. -/
def shuffleWith (m : RNNModel) (ord : List ℕ) : RNNModel :=
  { m with
    predictors := ord.map (fun i => m.predictors.getD i []),
    responses := ord.map (fun i => m.responses.getD i []) }

/-- Pairwise agreement of two response cubes on their final time steps:
the same example count, per-example the same step count and the same final
time-step slice. -/
def agreeLast (r₁ r₂ : Cube) : Prop :=
  List.Forall₂ (fun a b => a.length = b.length ∧ a.getLastD [] = b.getLastD []) r₁ r₂

/-- A concrete stateless layer with `n` parameters, for witnesses. -/
def sampleLayer (n : ℕ) : Layer :=
  { idLayer with paramCount := n }

/-- A concrete model over a three-layer composition, for witnesses. -/
def sampleModel : RNNModel where
  rho := 2
  single := false
  network := [sampleLayer 2, sampleLayer 3, sampleLayer 1]
  parameter := []
  predictors := [[[1], [2]], [[3], [4]]]
  responses := [[[1], [1]], [[0], [2]]]
  numFunctions := 2
  reset := false
  states := [[], [], []]
  deterministic := false
  lossFn := fun _ _ => some 0
  lossGrad := fun _ _ => [0]
  initRule := fun _ => []

/-- A concrete model whose output layer always reports a non-finite loss,
for the divergence witness. -/
def divergentModel : RNNModel :=
  { sampleModel with
    network := [idLayer]
    states := [[]]
    lossFn := fun _ _ => none }

/-! ## Helper lemmas -/

theorem fitTo_length (n : ℕ) (xs : List ℚ) : (fitTo n xs).length = n := by
  simp only [fitTo, List.length_append, List.length_take, List.length_replicate]
  omega

theorem totalParams_append (l₁ l₂ : List Layer) :
    totalParams (l₁ ++ l₂) = totalParams l₁ + totalParams l₂ := by
  simp [totalParams]

theorem totalParams_take_succ (net : List Layer) (i : ℕ) (hi : i < net.length) :
    totalParams (net.take (i + 1)) = totalParams (net.take i) + layerCount net i := by
  induction net generalizing i with
  | nil => simp at hi
  | cons a l ih =>
    cases i with
    | zero => simp [totalParams, layerCount]
    | succ j =>
      simp only [List.take_succ_cons, totalParams, List.map_cons, List.sum_cons]
      have := ih j (by simpa using hi)
      simp only [totalParams] at this
      rw [this]
      simp [layerCount, Nat.add_assoc]

theorem layerOffset_mono (net : List Layer) (i j : ℕ) (hij : i ≤ j) :
    layerOffset net i ≤ layerOffset net j := by
  unfold layerOffset
  have h1 : net.take j = (net.take j).take i ++ (net.take j).drop i :=
    (List.take_append_drop i (net.take j)).symm
  have h2 : (net.take j).take i = net.take i := by
    rw [List.take_take, min_eq_left hij]
  calc totalParams (net.take i) = totalParams ((net.take j).take i) := by rw [h2]
    _ ≤ totalParams ((net.take j).take i) + totalParams ((net.take j).drop i) :=
        Nat.le_add_right _ _
    _ = totalParams (net.take j) := by rw [← totalParams_append, ← h1]

theorem layerOffset_length (net : List Layer) :
    layerOffset net net.length = totalParams net := by
  simp [layerOffset]

/-! ## Claim C1 -/

/-- Claim C1: for every layer composition, after `Reset()` the length of
the flat parameter buffer equals the sum of every layer's reported
parameter count, and the sub-range views of any two distinct layers are
disjoint within that buffer (the earlier view ends at or before the later
view's offset, and every view lies inside the buffer). -/
theorem reset_buffer_sized_and_views_disjoint (m : RNNModel) (i j : ℕ)
    (hij : i < j) (hj : j < m.network.length) :
    (resetModel m).parameter.length = totalParams m.network ∧
    layerOffset m.network i + layerCount m.network i ≤ layerOffset m.network j ∧
    layerOffset m.network j + layerCount m.network j ≤ totalParams m.network := by
  refine ⟨?_, ?_, ?_⟩
  · simp only [resetModel]
    split
    · assumption
    · exact fitTo_length _ _
  · have hi : i < m.network.length := lt_trans hij hj
    calc layerOffset m.network i + layerCount m.network i
        = layerOffset m.network (i + 1) := (totalParams_take_succ _ _ hi).symm
      _ ≤ layerOffset m.network j := layerOffset_mono _ _ _ hij
  · calc layerOffset m.network j + layerCount m.network j
        = layerOffset m.network (j + 1) := (totalParams_take_succ _ _ hj).symm
      _ ≤ layerOffset m.network m.network.length :=
          layerOffset_mono _ _ _ hj
      _ = totalParams m.network := layerOffset_length _

/-- Witness for C1 at a concrete three-layer model. -/
theorem reset_buffer_sized_and_views_disjoint_witness :
    (resetModel sampleModel).parameter.length = totalParams sampleModel.network ∧
    layerOffset sampleModel.network 0 + layerCount sampleModel.network 0 ≤
      layerOffset sampleModel.network 2 ∧
    layerOffset sampleModel.network 2 + layerCount sampleModel.network 2 ≤
      totalParams sampleModel.network :=
  reset_buffer_sized_and_views_disjoint sampleModel 0 2 (by decide) (by decide)

/-! ## Claim C4 -/

theorem resetCellsM_runSeqModel (m : RNNModel) (B : List (List ℚ)) :
    resetCellsM (runSeqModel m B) = resetCellsM m := rfl

/-- Claim C4: for every sequence `A` and every unrelated sequence `B`,
running `ResetCells` and then `Forward` over `A` produces the same outputs
whether or not `B` was processed beforehand: a cell reset makes the outputs
of a new sequence independent of all prior sequence history. -/
theorem resetCells_forward_history_independent (m : RNNModel)
    (A B : List (List ℚ)) :
    runSeqOuts (resetCellsM (runSeqModel m B)) A =
      runSeqOuts (resetCellsM m) A := by
  rw [resetCellsM_runSeqModel]

/-! ## Claim C10 -/

/-- Claim C10: for every parameters matrix, begin index, and batch size, the
three-argument `Evaluate(parameters, begin, batchSize)` returns the same
value as the four-argument
`Evaluate(parameters, begin, batchSize, deterministic)` with
`deterministic = true`. -/
theorem evaluate_three_arg_refines_four_arg (m : RNNModel) (params : List ℚ)
    (b bs : ℕ) :
    evaluateThreeArg m params b bs = evaluateChecked m params b bs true := rfl

/-! ## Claim C5 -/

theorem range_map_getD_zip {α β : Type} (p : List α) (r : List β) (dp : α)
    (dr : β) (h : r.length = p.length) :
    (List.range p.length).map (fun i => (p.getD i dp, r.getD i dr)) = p.zip r := by
  induction p generalizing r with
  | nil => simp
  | cons a p' ih =>
    cases r with
    | nil => simp at h
    | cons b r' =>
      rw [List.length_cons, List.range_succ_eq_map, List.map_cons, List.map_map]
      simp only [List.getD_cons_zero, List.zip_cons_cons]
      congr 1
      have : ((fun i => ((a :: p').getD i dp, (b :: r').getD i dr)) ∘ Nat.succ)
          = fun i => (p'.getD i dp, r'.getD i dr) := by
        funext i
        simp [List.getD_cons_succ]
      rw [this, ih r' (by simpa using h)]

/-- Claim C5: `Shuffle` permutes the example axis of predictors and
responses jointly: for every ordering that is a permutation of the example
indices, the multiset of (predictor, response) example pairs is unchanged
and `NumFunctions()` returns the same value as before. -/
theorem shuffle_is_permutation (m : RNNModel) (ord : List ℕ)
    (hord : ord.Perm (List.range m.predictors.length))
    (hlen : m.responses.length = m.predictors.length) :
    ((shuffleWith m ord).predictors.zip (shuffleWith m ord).responses).Perm
      (m.predictors.zip m.responses) ∧
    (shuffleWith m ord).numFunctions = m.numFunctions := by
  constructor
  · have hz : (shuffleWith m ord).predictors.zip (shuffleWith m ord).responses
        = ord.map (fun i => (m.predictors.getD i [], m.responses.getD i [])) := by
      simp [shuffleWith, List.zip_map']
    rw [hz]
    have hp := hord.map (fun i => (m.predictors.getD i [], m.responses.getD i []))
    rwa [range_map_getD_zip m.predictors m.responses [] [] hlen] at hp
  · rfl

/-- Witness for C5: a concrete swap of the two examples of the sample
model. -/
theorem shuffle_is_permutation_witness :
    ((shuffleWith sampleModel [1, 0]).predictors.zip
        (shuffleWith sampleModel [1, 0]).responses).Perm
      (sampleModel.predictors.zip sampleModel.responses) ∧
    (shuffleWith sampleModel [1, 0]).numFunctions = sampleModel.numFunctions :=
  shuffle_is_permutation sampleModel [1, 0] (by decide) (by decide)

/-! ## Claim C8 -/

/-- Claim C8: a call to `Train` whose predictors and responses disagree on
example count or time-step count, and a call to `Evaluate` (with or without
gradient) whose supplied parameter buffer size disagrees with the summed
layer parameter counts — or whose stored data shapes disagree — fail fast:
they return the precondition-violation error before any forward, backward,
or gradient computation, and (the error case carries no updated model) no
state is mutated. -/
theorem shape_or_size_mismatch_fails_fast (m : RNNModel) (p r : Cube)
    (params : List ℚ) (b bs : ℕ) (det : Bool)
    (hshape : shapesMatch p r = false)
    (hsize : params.length ≠ totalParams m.network) :
    trainChecked m p r = .error "shape mismatch" ∧
    evaluateChecked m params b bs det = .error "parameter size mismatch" ∧
    evaluateWithGradientChecked m params b bs = .error "parameter size mismatch" ∧
    (∀ q : List ℚ, q.length = totalParams m.network →
      shapesMatch m.predictors m.responses = false →
      evaluateChecked m q b bs det = .error "shape mismatch") := by
  refine ⟨?_, ?_, ?_, ?_⟩
  · simp [trainChecked, hshape]
  · simp [evaluateChecked, hsize]
  · simp [evaluateWithGradientChecked, hsize]
  · intro q hq hms
    simp [evaluateChecked, hq, hms]

/-- Witness for C8: mismatched example counts and a wrongly sized buffer at
the concrete sample model. -/
theorem shape_or_size_mismatch_fails_fast_witness :
    trainChecked sampleModel [[[1], [2]]] [] = .error "shape mismatch" ∧
    evaluateChecked sampleModel [1] 0 2 false = .error "parameter size mismatch" ∧
    evaluateWithGradientChecked sampleModel [1] 0 2 = .error "parameter size mismatch" ∧
    (∀ q : List ℚ, q.length = totalParams sampleModel.network →
      shapesMatch sampleModel.predictors sampleModel.responses = false →
      evaluateChecked sampleModel q 0 2 false = .error "shape mismatch") :=
  shape_or_size_mismatch_fails_fast sampleModel [[[1], [2]]] [] [1] 0 2 false
    (by decide) (by decide)

/-! ## Claim C9 -/

theorem resetModel_network (m : RNNModel) : (resetModel m).network = m.network := rfl

theorem resetModel_parameter_length (m : RNNModel) :
    (resetModel m).parameter.length = totalParams m.network := by
  simp only [resetModel]
  split
  · assumption
  · exact fitTo_length _ _

/-- Claim C9: `Evaluate` on a network whose parameter buffer has not been
initialized by `Reset` deterministically auto-initializes first: the call
equals the call on the reset model; the reset model's buffer has exactly
the summed layer parameter count (never stale or undersized), is marked
reset, and — when resizing was needed — is filled by an explicit function
of the layer composition and the initialization rule alone. -/
theorem evaluate_uninitialized_auto_initializes (m : RNNModel)
    (params : List ℚ) (b bs : ℕ) (det : Bool) (h : m.reset = false) :
    evaluateChecked m params b bs det =
      evaluateChecked (resetModel m) params b bs det ∧
    (resetModel m).parameter.length = totalParams m.network ∧
    (resetModel m).reset = true ∧
    (m.parameter.length ≠ totalParams m.network →
      (resetModel m).parameter =
        fitTo (totalParams m.network) (m.initRule (totalParams m.network))) := by
  refine ⟨?_, resetModel_parameter_length m, rfl, ?_⟩
  · simp [evaluateChecked, h, resetModel]
  · intro hne
    simp [resetModel, hne]

/-- Witness for C9 at the concrete sample model, whose `reset` flag is
false. -/
theorem evaluate_uninitialized_auto_initializes_witness :
    evaluateChecked sampleModel [] 0 2 false =
      evaluateChecked (resetModel sampleModel) [] 0 2 false ∧
    (resetModel sampleModel).parameter.length = totalParams sampleModel.network ∧
    (resetModel sampleModel).reset = true ∧
    (sampleModel.parameter.length ≠ totalParams sampleModel.network →
      (resetModel sampleModel).parameter =
        fitTo (totalParams sampleModel.network)
          (sampleModel.initRule (totalParams sampleModel.network))) :=
  evaluate_uninitialized_auto_initializes sampleModel [] 0 2 false rfl

/-! ## Claim C6 -/

theorem eadd_none_right (x : EFlt) : eadd x none = none := by
  cases x <;> rfl

theorem esum_none_of_mem {l : List EFlt} (h : none ∈ l) : esum l = none := by
  induction l with
  | nil => simp at h
  | cons a t ih =>
    rcases List.mem_cons.mp h with ha | ht
    · rw [esum, List.foldr_cons, ← ha]
      rfl
    · rw [esum, List.foldr_cons]
      have : esum t = none := ih ht
      rw [esum] at this
      rw [this, eadd_none_right]

/-- Claim C6: on every input on which the loss computation diverges
numerically (some used loss term is the non-finite sentinel), `Evaluate`
and `EvaluateWithGradient` return the non-finite sentinel as an ordinary
return value and do not throw: the result is the `.ok` case carrying
`none`, never the `.error` case, so divergence is signalled only through
the return value. -/
theorem divergence_returns_sentinel (m : RNNModel) (params : List ℚ)
    (b bs : ℕ) (det : Bool)
    (hsize : params.length = totalParams m.network)
    (hshape : shapesMatch m.predictors m.responses = true)
    (hdiv : none ∈ lossTermsOn m params det b bs) :
    evaluateChecked m params b bs det = .ok none ∧
    (det = false →
      ∃ g, evaluateWithGradientChecked m params b bs = .ok (none, g)) := by
  have hobj : objectiveCore m.network params m.lossFn m.single det
      m.predictors m.responses b bs = none := by
    have hex : ∃ l : List EFlt,
        (∃ a c, (a, c) ∈ batchOf m.predictors m.responses b bs ∧
          exampleTerms m.network params m.lossFn m.single det a c = l) ∧
        none ∈ l := by
      simpa [lossTermsOn, List.mem_flatten] using hdiv
    obtain ⟨l, ⟨a, c, hac, hterm⟩, hnl⟩ := hex
    apply esum_none_of_mem
    refine List.mem_map.mpr ⟨(a, c), hac, ?_⟩
    show exampleLoss m.network params m.lossFn m.single det a c = none
    rw [exampleLoss, hterm]
    exact esum_none_of_mem hnl
  constructor
  · by_cases hr : m.reset <;>
      simp [evaluateChecked, hsize, hshape, hr, resetModel, hobj]
  · intro hdet
    subst hdet
    by_cases hr : m.reset <;>
      simp [evaluateWithGradientChecked, hsize, hshape, hr, resetModel, hobj]

/-- Witness for C6: the divergent sample model, whose output layer reports
a non-finite loss at every step. -/
theorem divergence_returns_sentinel_witness :
    evaluateChecked divergentModel [] 0 2 false = .ok none ∧
    (false = false →
      ∃ g, evaluateWithGradientChecked divergentModel [] 0 2 = .ok (none, g)) :=
  divergence_returns_sentinel divergentModel [] 0 2 false (by decide) (by decide)
    (by decide)

/-! ## Claim C3 -/

theorem agreeLast_stepsOf {r₁ r₂ : Cube} (h : agreeLast r₁ r₂) :
    stepsOf r₁ = stepsOf r₂ := by
  cases h with
  | nil => rfl
  | cons hab _ => simpa [stepsOf] using hab.1

theorem agreeLast_length {r₁ r₂ : Cube} (h : agreeLast r₁ r₂) :
    r₁.length = r₂.length := h.length_eq

theorem agreeLast_all_length {r₁ r₂ : Cube} (h : agreeLast r₁ r₂) (k : ℕ) :
    (r₁.all fun e => e.length == k) = (r₂.all fun e => e.length == k) := by
  induction h with
  | nil => rfl
  | cons hab _ ih => simp [List.all_cons, hab.1, ih]

theorem agreeLast_shapesMatch {r₁ r₂ : Cube} (h : agreeLast r₁ r₂) (p : Cube) :
    shapesMatch p r₁ = shapesMatch p r₂ := by
  unfold shapesMatch
  rw [agreeLast_length h, agreeLast_stepsOf h, agreeLast_all_length h (stepsOf r₂)]

theorem zip_map_exampleLoss_single {r₁ r₂ : Cube} (h : agreeLast r₁ r₂)
    (net : List Layer) (buf : List ℚ) (lossFn : List ℚ → List ℚ → EFlt)
    (det : Bool) :
    ∀ p : Cube,
      (p.zip r₁).map (fun e => exampleLoss net buf lossFn true det e.1 e.2) =
        (p.zip r₂).map (fun e => exampleLoss net buf lossFn true det e.1 e.2) := by
  induction h with
  | nil => intro p; simp
  | cons hab _ ih =>
    intro p
    cases p with
    | nil => simp
    | cons x p' =>
      simp only [List.zip_cons_cons, List.map_cons, ih p']
      congr 1
      have hab2 := hab.2
      rw [List.getLastD_eq_getLast?, List.getLastD_eq_getLast?] at hab2
      simp [exampleLoss, exampleTerms, hab2]

theorem objectiveCore_single_agreeLast {r₁ r₂ : Cube} (h : agreeLast r₁ r₂)
    (net : List Layer) (buf : List ℚ) (lossFn : List ℚ → List ℚ → EFlt)
    (det : Bool) (p : Cube) (b bs : ℕ) :
    objectiveCore net buf lossFn true det p r₁ b bs =
      objectiveCore net buf lossFn true det p r₂ b bs := by
  unfold objectiveCore batchOf
  simp only [List.map_take, List.map_drop]
  rw [zip_map_exampleLoss_single h net buf lossFn det p]

/-- Claim C3: with `single = true`, for every pair of response tensors that
agree on the final time step (and per-example step counts) but may differ
on earlier time steps, `Evaluate` computes the same loss: the loss depends
only on the last time-step's output and target. -/
theorem single_mode_loss_depends_only_on_final_step (m : RNNModel)
    (params : List ℚ) (b bs : ℕ) (det : Bool) (r₁ r₂ : Cube)
    (hs : m.single = true) (h : agreeLast r₁ r₂) :
    evaluateChecked { m with responses := r₁ } params b bs det =
      evaluateChecked { m with responses := r₂ } params b bs det := by
  have h1 := agreeLast_shapesMatch h m.predictors
  have h2 := objectiveCore_single_agreeLast h m.network params m.lossFn det
    m.predictors b bs
  by_cases hr : m.reset <;>
    simp [evaluateChecked, resetModel, hr, h1, hs, h2]

/-- Witness for C3: two concrete response tensors that differ on the first
time step but agree on the final one. -/
theorem single_mode_loss_depends_only_on_final_step_witness :
    evaluateChecked { { sampleModel with single := true } with
        responses := [[[1], [1]], [[0], [2]]] } [] 0 2 false =
      evaluateChecked { { sampleModel with single := true } with
        responses := [[[9], [1]], [[7], [2]]] } [] 0 2 false :=
  single_mode_loss_depends_only_on_final_step { sampleModel with single := true }
    [] 0 2 false [[[1], [1]], [[0], [2]]] [[[9], [1]], [[7], [2]]] rfl
    (List.Forall₂.cons ⟨rfl, rfl⟩ (List.Forall₂.cons ⟨rfl, rfl⟩ List.Forall₂.nil))

/-! ## Gradient-accumulation lemmas (shared by C7 and C2) -/

theorem vecAddL_length : ∀ a b : List ℚ, (vecAddL a b).length = a.length
  | [], _ => rfl
  | _ :: _, [] => rfl
  | a :: as, b :: bs => by
    simp only [vecAddL, List.length_cons, vecAddL_length as bs]

theorem getD_replicate_zero (n j : ℕ) : (List.replicate n (0 : ℚ)).getD j 0 = 0 := by
  induction n generalizing j with
  | zero => simp [List.getD]
  | succ k ih =>
    cases j with
    | zero => simp [List.replicate]
    | succ i => simp only [List.replicate, List.getD_cons_succ]; exact ih i

theorem vecAddL_getD (a b : List ℚ) (j : ℕ) (hb : b.length = a.length)
    (hj : j < a.length) :
    (vecAddL a b).getD j 0 = a.getD j 0 + b.getD j 0 := by
  induction a generalizing b j with
  | nil => simp at hj
  | cons x as ih =>
    cases b with
    | nil => simp at hb
    | cons y bs =>
      cases j with
      | zero => simp [vecAddL]
      | succ i =>
        simp only [vecAddL, List.getD_cons_succ]
        exact ih bs i (by simpa using hb) (by simpa using hj)

theorem foldl_vecAddL_length :
    ∀ (terms : List (List ℚ)) (acc : List ℚ),
      (terms.foldl vecAddL acc).length = acc.length
  | [], _ => rfl
  | t :: ts, acc => by
    simp only [List.foldl_cons]
    rw [foldl_vecAddL_length ts (vecAddL acc t), vecAddL_length]

theorem foldl_vecAddL_getD :
    ∀ (terms : List (List ℚ)) (acc : List ℚ),
      (∀ t ∈ terms, t.length = acc.length) → ∀ j, j < acc.length →
      (terms.foldl vecAddL acc).getD j 0 =
        acc.getD j 0 + ((terms.map (fun t => t.getD j 0)).sum)
  | [], acc, _, j, _ => by simp
  | t :: ts, acc, hlen, j, hj => by
    simp only [List.foldl_cons, List.map_cons, List.sum_cons]
    have hacc : (vecAddL acc t).length = acc.length := vecAddL_length acc t
    have hts : ∀ u ∈ ts, u.length = (vecAddL acc t).length := by
      intro u hu
      rw [hacc]
      exact hlen u (List.mem_cons_of_mem _ hu)
    rw [foldl_vecAddL_getD ts (vecAddL acc t) hts j (by rwa [hacc]),
      vecAddL_getD acc t j (hlen t (List.mem_cons_self t ts)) hj, add_assoc]

theorem stackGrad_length :
    ∀ (net : List Layer) (cins errs : List (List ℚ)),
      (stackGrad net cins errs).length = totalParams net
  | [], _, _ => rfl
  | l :: ls, cins, errs => by
    simp only [stackGrad, List.length_append, fitTo_length,
      stackGrad_length ls cins.tail errs.tail]
    simp [totalParams]

theorem gradTerms_length_mem (net : List Layer) (fb : List ℚ)
    (steps : List StepBwdIn) :
    ∀ t ∈ gradTerms net fb steps, t.length = totalParams net := by
  intro t ht
  obtain ⟨pr, _, rfl⟩ := List.mem_map.mp ht
  exact stackGrad_length net pr.2 pr.1

theorem resetGradients_length (net : List Layer) :
    (resetGradients net).length = totalParams net := by
  simp [resetGradients]

theorem aggregateGradient_getD (net : List Layer) (steps : List StepBwdIn)
    (j : ℕ) (hj : j < totalParams net) :
    (aggregateGradient net steps).getD j 0 =
      ((gradTerms net [] steps).map (fun t => t.getD j 0)).sum := by
  unfold aggregateGradient
  rw [foldl_vecAddL_getD (gradTerms net [] steps) (resetGradients net)
      (by
        intro t ht
        rw [resetGradients_length]
        exact gradTerms_length_mem net [] steps t ht)
      j (by rwa [resetGradients_length]),
    resetGradients, getD_replicate_zero, zero_add]

/-! ## Claim C7 -/

/-- Claim C7: in each gradient computation the flat gradient buffer is
zeroed exactly once (`resetGradients`, the buffer of zeros sized by the
composition) before the per-step accumulation pass begins, and every
retained time step's per-layer gradient contribution is added — not
overwritten — into that buffer, so each coordinate of the final gradient is
the sum over all retained steps of that step's contribution. -/
theorem gradient_zeroed_once_then_summed (net : List Layer)
    (steps : List StepBwdIn) (j : ℕ) (hj : j < totalParams net) :
    (aggregateGradient net steps).length = totalParams net ∧
    (resetGradients net).getD j 0 = 0 ∧
    (aggregateGradient net steps).getD j 0 =
      ((gradTerms net [] steps).map (fun t => t.getD j 0)).sum := by
  refine ⟨?_, ?_, aggregateGradient_getD net steps j hj⟩
  · unfold aggregateGradient
    rw [foldl_vecAddL_length, resetGradients_length]
  · rw [resetGradients, getD_replicate_zero]

/-- Witness for C7: a one-layer composition with a single retained step. -/
theorem gradient_zeroed_once_then_summed_witness :
    (aggregateGradient [sampleLayer 2] [⟨[[1]], [[1]], [1]⟩]).length =
      totalParams [sampleLayer 2] ∧
    (resetGradients [sampleLayer 2]).getD 0 0 = 0 ∧
    (aggregateGradient [sampleLayer 2] [⟨[[1]], [[1]], [1]⟩]).getD 0 0 =
      ((gradTerms [sampleLayer 2] [] [⟨[[1]], [[1]], [1]⟩]).map
        (fun t => t.getD 0 0)).sum :=
  gradient_zeroed_once_then_summed [sampleLayer 2] [⟨[[1]], [[1]], [1]⟩] 0
    (by decide)

/-! ## Claim C2 -/

theorem bpttErrors_take (net : List Layer) :
    ∀ (l : List StepBwdIn) (k : ℕ) (fb : List ℚ),
      bpttErrors net fb (l.take k) = (bpttErrors net fb l).take k
  | [], k, fb => by simp [bpttErrors]
  | st :: older, 0, fb => by simp [bpttErrors]
  | st :: older, k + 1, fb => by
    simp only [List.take_succ_cons, bpttErrors]
    rw [bpttErrors_take net older k]

theorem gradTerms_take (net : List Layer) (fb : List ℚ)
    (l : List StepBwdIn) (k : ℕ) :
    gradTerms net fb (l.take k) = (gradTerms net fb l).take k := by
  unfold gradTerms
  rw [bpttErrors_take net l k fb, List.map_take]

theorem maskOlder_sum (rho P j : ℕ) :
    ∀ (ts : List (List ℚ)) (age : ℕ),
      ((maskOlder rho P age ts).map (fun t => t.getD j 0)).sum =
        ((ts.take (rho - age)).map (fun t => t.getD j 0)).sum
  | [], age => by simp [maskOlder]
  | t :: ts, age => by
    by_cases h : age < rho
    · have hsub : rho - age = (rho - (age + 1)) + 1 := by omega
      rw [hsub, List.take_succ_cons]
      simp only [maskOlder, if_pos h, List.map_cons, List.sum_cons]
      rw [maskOlder_sum rho P j ts (age + 1)]
    · have h0 : rho - age = 0 := by omega
      have h1 : rho - (age + 1) = 0 := by omega
      simp only [maskOlder, if_neg h, List.map_cons, List.sum_cons, h0,
        List.take_zero, List.map_nil, List.sum_nil]
      rw [maskOlder_sum rho P j ts (age + 1), h1]
      simp [getD_replicate_zero]

theorem seqFwd_caches_length (det : Bool) (net : List Layer)
    (ps : List (List ℚ)) :
    ∀ (xs ss : List (List ℚ)), (seqFwd det net ps ss xs).caches.length = xs.length
  | [], _ => rfl
  | x :: xs, ss => by
    simp only [seqFwd, List.length_cons]
    rw [seqFwd_caches_length det net ps xs]

theorem stepsFor_length_le (net : List Layer) (buf : List ℚ)
    (lg : List ℚ → List ℚ → List ℚ) (single : Bool)
    (ex tgts : List (List ℚ)) :
    (stepsFor net buf lg single ex tgts).length ≤ ex.length := by
  unfold stepsFor
  rw [List.length_reverse, List.length_zipWith,
    seqFwd_caches_length false net (slicesOf net buf) ex (initStates net)]
  exact min_le_left _ _

/-- Claim C2: for every input sequence whose number of time steps is at
most `rho`, the backward pass produces the same gradient as full
untruncated BPTT; and in general each coordinate of the truncated gradient
equals the sum of the per-step contributions with every step older than the
rho-bounded window (age `rho` or more, latest first) replaced by the zero
vector — the gradient contribution of every such older step is exactly
zero. -/
theorem truncated_bptt_full_window_and_zero_beyond (net : List Layer)
    (buf : List ℚ) (lg : List ℚ → List ℚ → List ℚ) (single : Bool)
    (rho : ℕ) (ex tgts : List (List ℚ)) (j : ℕ)
    (hj : j < totalParams net) :
    (ex.length ≤ rho →
      truncatedGradient net buf lg single rho ex tgts =
        fullGradient net buf lg single ex tgts) ∧
    (truncatedGradient net buf lg single rho ex tgts).getD j 0 =
      ((maskOlder rho (totalParams net) 0
          (gradTerms net [] (stepsFor net buf lg single ex tgts))).map
        (fun t => t.getD j 0)).sum := by
  constructor
  · intro hrho
    unfold truncatedGradient fullGradient
    rw [List.take_of_length_le (le_trans (stepsFor_length_le net buf lg single ex tgts) hrho)]
  · unfold truncatedGradient
    rw [aggregateGradient_getD net _ j hj, gradTerms_take,
      maskOlder_sum rho (totalParams net) j
        (gradTerms net [] (stepsFor net buf lg single ex tgts)) 0,
      Nat.sub_zero]

/-- Witness for C2: a one-layer composition over a one-step sequence, with
`rho = 2`. -/
theorem truncated_bptt_full_window_and_zero_beyond_witness :
    (([[(1 : ℚ)]] : List (List ℚ)).length ≤ 2 →
      truncatedGradient [sampleLayer 2] [1, 2] (fun _ _ => [1]) false 2
          [[1]] [[1]] =
        fullGradient [sampleLayer 2] [1, 2] (fun _ _ => [1]) false [[1]] [[1]]) ∧
    (truncatedGradient [sampleLayer 2] [1, 2] (fun _ _ => [1]) false 2
        [[1]] [[1]]).getD 0 0 =
      ((maskOlder 2 (totalParams [sampleLayer 2]) 0
          (gradTerms [sampleLayer 2] []
            (stepsFor [sampleLayer 2] [1, 2] (fun _ _ => [1]) false
              [[1]] [[1]]))).map (fun t => t.getD 0 0)).sum :=
  truncated_bptt_full_window_and_zero_beyond [sampleLayer 2] [1, 2]
    (fun _ _ => [1]) false 2 [[1]] [[1]] 0 (by decide)

end RNNSpec
